import Mathlib

/-! # QtMultimedia video probe and audio decoder: a verification development

Shallow embedding of

* `src/multimedia/video/qvideoprobe.cpp` (`QVideoProbe`),
* `src/plugins/gstreamer/qgstreamervideoprobecontrol.h` (`QGstreamerVideoProbeControl`),
* the decode session exercised by `tests/auto/unit/qaudiodecoder/tst_qaudiodecoder.cpp`.

Pointers are object identities; a null pointer is `none`.  Calls that leave the
translated file (`requestControl`, `releaseControl`, `connect`, `disconnect`) are
recorded, in program order, in a call log carried by the probe state.
-/

namespace QtMultimedia

/-! ## Data model of `qvideoprobe.cpp` -/

/-- Identity of a `QMediaObject` (the address the pointer holds). -/
abbrev QMediaObject := Nat

/-- Identity of a `QMediaService`. -/
abbrev QMediaService := Nat

/-- Identity of a `QMediaVideoProbeControl`. -/
abbrev QMediaVideoProbeControl := Nat

/-- The two signals of the control that the probe forwards
(`SIGNAL(videoFrameProbed(QVideoFrame))` and `SIGNAL(flush())`). -/
inductive ProbeSignal where
  | videoFrameProbed
  | flush
  deriving DecidableEq, Repr

/-- One call made by `QVideoProbe` to code outside `qvideoprobe.cpp`.

* `requestControl svc r`: `svc->requestControl<QMediaVideoProbeControl*>()` returned `r`;
* `releaseControl svc c`: `svc->releaseControl(c)`, where `svc` is what
  `d->source.data()->service()` evaluated to and `c` is `d->probee.data()`;
* `connect c sig`: `connect(c, sig, this, sig)`;
* `disconnect c sig`: `disconnect(c, sig, this, sig)`, `c` being `d->probee.data()`. -/
inductive ProbeCall where
  | requestControl (service : QMediaService) (result : Option QMediaVideoProbeControl)
  | releaseControl (service : Option QMediaService) (control : Option QMediaVideoProbeControl)
  | connect (sender : QMediaVideoProbeControl) (signal : ProbeSignal)
  | disconnect (sender : Option QMediaVideoProbeControl) (signal : ProbeSignal)
  deriving DecidableEq, Repr

/-- The collaborators of `QVideoProbe` whose code is outside `qvideoprobe.cpp`.

* `service s` is `s->service()`, a member fixed when the media object is built;
* `requestControl svc history` is the answer of
  `svc->requestControl<QMediaVideoProbeControl*>()` when the probe has made the calls
  `history` so far: the service is stateful, so its answer may differ from call to call. -/
structure MediaWorld where
  service : QMediaObject → Option QMediaService
  requestControl : QMediaService → List ProbeCall → Option QMediaVideoProbeControl

/-- Member data `class QVideoProbePrivate`: two weak pointers. -/
structure QVideoProbePrivate where
  source : Option QMediaObject
  probee : Option QMediaVideoProbeControl
  deriving DecidableEq, Repr

/-- A `QVideoProbe` object: its private data `d`, the signal-to-signal connections
that end in this probe (one entry per `connect` still in force), and the log of the
outside calls it has made. -/
structure QVideoProbe where
  d : QVideoProbePrivate
  connections : List (QMediaVideoProbeControl × ProbeSignal)
  calls : List ProbeCall
  deriving DecidableEq, Repr

/-- A `QMediaRecorder` as far as `setSource(QMediaRecorder *)` reads it:
the value of `mediaRecorder->mediaObject()`. -/
structure QMediaRecorder where
  mediaObject : Option QMediaObject
  deriving DecidableEq, Repr

namespace QVideoProbe

/-- Constructor `QVideoProbe::QVideoProbe`: a new private object whose weak pointers are null;
nothing is connected and nothing has been called. -/
def new : QVideoProbe :=
  { d := { source := none, probee := none }, connections := [], calls := [] }

/-- Qt call `connect(sender, signal, this, signal)`: one more connection (Qt keeps duplicates,
no `Qt::UniqueConnection` is passed). -/
def connect (p : QVideoProbe) (sender : QMediaVideoProbeControl) (signal : ProbeSignal) :
    QVideoProbe :=
  { p with
    connections := p.connections ++ [(sender, signal)]
    calls := p.calls ++ [ProbeCall.connect sender signal] }

/-- Qt call `disconnect(sender, signal, this, signal)`: removes every connection of that signal
of that sender to this probe; with a null sender nothing is removed. -/
def disconnect (p : QVideoProbe) (sender : Option QMediaVideoProbeControl)
    (signal : ProbeSignal) : QVideoProbe :=
  { p with
    connections :=
      match sender with
      | some c => p.connections.filter (fun e => decide (e ≠ (c, signal)))
      | none => p.connections
    calls := p.calls ++ [ProbeCall.disconnect sender signal] }

/-- The call `d->source.data()->service()->releaseControl(d->probee.data())`. -/
def releaseControl (p : QVideoProbe) (service : Option QMediaService)
    (control : Option QMediaVideoProbeControl) : QVideoProbe :=
  { p with calls := p.calls ++ [ProbeCall.releaseControl service control] }

/-- The statement `d->probee = service->requestControl<QMediaVideoProbeControl*>();`. -/
def requestControl (w : MediaWorld) (p : QVideoProbe) (service : QMediaService) :
    QVideoProbe :=
  let r := w.requestControl service p.calls
  { p with
    d := { p.d with probee := r }
    calls := p.calls ++ [ProbeCall.requestControl service r] }

/-- Lines 134-141 of `setSource`: the block under `if (d->source)`.  With a null
`d->source` the block is skipped. -/
def detachCurrent (w : MediaWorld) (p : QVideoProbe) : QVideoProbe :=
  match p.d.source with
  | some cur =>
    let p1 := disconnect p p.d.probee ProbeSignal.videoFrameProbed
    let p2 := disconnect p1 p1.d.probee ProbeSignal.flush
    let p3 := releaseControl p2 (w.service cur) p2.d.probee
    { p3 with d := { source := none, probee := none } }
  | none => p

/-- Lines 143-154 of `setSource`: the block under `if (source)`. -/
def attachTo (w : MediaWorld) (p : QVideoProbe) (source : QMediaObject) : QVideoProbe :=
  let p1 :=
    match w.service source with
    | some service => requestControl w p service
    | none => p
  match p1.d.probee with
  | some c =>
    let p2 := connect p1 c ProbeSignal.videoFrameProbed
    let p3 := connect p2 c ProbeSignal.flush
    { p3 with d := { p3.d with source := some source } }
  | none => p1

/-- Member function `bool QVideoProbe::setSource(QMediaObject *source)`: the probe after the call and
the value returned. -/
def setSource (w : MediaWorld) (p : QVideoProbe) (source : Option QMediaObject) :
    QVideoProbe × Bool :=
  let p' :=
    if source ≠ p.d.source then
      let p1 := detachCurrent w p
      match source with
      | some s => attachTo w p1 s
      | none => p1
    else p
  (p', source.isNone || p'.d.probee.isSome)

/-- Value of the condition of `Q_ASSERT(d->probee)` at the point where
`setSource(source)` evaluates it; `true` when the call does not reach the assertion. -/
def detachAssertion (p : QVideoProbe) (source : Option QMediaObject) : Bool :=
  if source ≠ p.d.source then
    match p.d.source with
    | some _ => p.d.probee.isSome
    | none => true
  else true

/-- Member function `bool QVideoProbe::setSource(QMediaRecorder *mediaRecorder)`: the
probe after the call and the value returned. -/
def setSourceRecorder (w : MediaWorld) (p : QVideoProbe)
    (mediaRecorder : Option QMediaRecorder) : QVideoProbe × Bool :=
  let source : Option QMediaObject :=
    match mediaRecorder with
    | some r => r.mediaObject
    | none => none
  let res := setSource w p source
  if mediaRecorder.isNone then (res.1, true)
  else if mediaRecorder.isSome && source.isNone then (res.1, false)
  else res

/-- Member function `bool QVideoProbe::isActive() const`. -/
def isActive (p : QVideoProbe) : Bool :=
  p.d.probee.isSome

/-- Destructor `QVideoProbe::~QVideoProbe`: the probe as the destructor body leaves it. -/
def destroy (w : MediaWorld) (p : QVideoProbe) : QVideoProbe :=
  match p.d.source with
  | some src =>
    let p2 :=
      match p.d.probee with
      | some c =>
        let p1 := disconnect p (some c) ProbeSignal.videoFrameProbed
        disconnect p1 (some c) ProbeSignal.flush
      | none => p
    releaseControl p2 (w.service src) p2.d.probee
  | none => p

/-- What the deletion of media object `s` does to the probe: a
`QWeakPointer<QMediaObject>` that tracked `s` reads null from then on; `d->probee` is a
separate weak pointer and keeps its value while the control lives. -/
def sourceDestroyed (p : QVideoProbe) (s : QMediaObject) : QVideoProbe :=
  if p.d.source = some s then { p with d := { p.d with source := none } } else p

end QVideoProbe

/-- A call of one of the two `setSource` overloads. -/
inductive SetSourceCall where
  | mediaObject (source : Option QMediaObject)
  | mediaRecorder (recorder : Option QMediaRecorder)
  deriving DecidableEq, Repr

/-- The probe after one `setSource` call (the returned flag dropped). -/
def SetSourceCall.apply (w : MediaWorld) (p : QVideoProbe) : SetSourceCall → QVideoProbe
  | SetSourceCall.mediaObject s => (QVideoProbe.setSource w p s).1
  | SetSourceCall.mediaRecorder r => (QVideoProbe.setSourceRecorder w p r).1

/-- The probe after a sequence of `setSource` calls, first call first. -/
def runSetSource (w : MediaWorld) (p : QVideoProbe) (cs : List SetSourceCall) : QVideoProbe :=
  cs.foldl (SetSourceCall.apply w) p

/-- States a probe can be in after construction and any number of `setSource` calls,
while every media object and control it was handed stays alive (no weak pointer is
cleared behind its back). -/
inductive Reachable (w : MediaWorld) : QVideoProbe → Prop where
  | fresh : Reachable w QVideoProbe.new
  | setSource (p : QVideoProbe) (source : Option QMediaObject) :
      Reachable w p → Reachable w (QVideoProbe.setSource w p source).1
  | setSourceRecorder (p : QVideoProbe) (r : Option QMediaRecorder) :
      Reachable w p → Reachable w (QVideoProbe.setSourceRecorder w p r).1

/-- Bookkeeping of control ownership along a call log.  The accumulator is the list of
acquisitions (service, control) not yet released, or `none` once a `releaseControl`
was made that matches no outstanding acquisition (null service, null control, a
control never obtained from that service, or one already released). -/
def ledgerStep (acc : Option (List (QMediaService × QMediaVideoProbeControl))) :
    ProbeCall → Option (List (QMediaService × QMediaVideoProbeControl))
  | ProbeCall.requestControl svc (some c) => acc.map (fun held => (svc, c) :: held)
  | ProbeCall.requestControl _ none => acc
  | ProbeCall.releaseControl (some svc) (some c) =>
    acc.bind (fun held => if (svc, c) ∈ held then some (held.erase (svc, c)) else none)
  | ProbeCall.releaseControl _ _ => none
  | ProbeCall.connect _ _ => acc
  | ProbeCall.disconnect _ _ => acc

/-- The acquisitions outstanding after a call log, `none` if some release was wrong. -/
def ledger (calls : List ProbeCall) : Option (List (QMediaService × QMediaVideoProbeControl)) :=
  calls.foldl ledgerStep (some [])

/-- A small world for concrete runs: media objects 1 and 2 have services 10 and 20,
service 10 always grants control 100, service 20 never grants one, other media
objects have no service. -/
def demoWorld : MediaWorld where
  service := fun s => if s = 1 then some 10 else if s = 2 then some 20 else none
  requestControl := fun svc _ => if svc = 10 then some 100 else none

/-- A world with a stateful service: media object 2 has service 20, which refuses a
request when it has not been asked before and grants control 200 once it has; no
other media object has a service. -/
def retryWorld : MediaWorld where
  service := fun s => if s = 2 then some 20 else none
  requestControl := fun svc history =>
    if history.any (fun e =>
      match e with
      | ProbeCall.requestControl asked _ => asked == svc
      | _ => false) then some 200
    else none

/-- The two shapes of a well-formed probe: detached (no source, no control, nothing
connected, every acquisition released), or attached to a source `s` whose service
granted the held control `c`, with exactly the two forwarding connections to `c` and
`c` as the one outstanding acquisition. -/
def Attachment (w : MediaWorld) (p : QVideoProbe) : Prop :=
  (p.d.source = none ∧ p.d.probee = none ∧ p.connections = [] ∧ ledger p.calls = some []) ∨
  (∃ s svc c, p.d.source = some s ∧ p.d.probee = some c ∧ w.service s = some svc ∧
    p.connections = [(c, ProbeSignal.videoFrameProbed), (c, ProbeSignal.flush)] ∧
    ledger p.calls = some [(svc, c)] ∧ ∃ h, w.requestControl svc h = some c)


/-! ## The GStreamer probe bridge (`QGstreamerVideoProbeControl`)

Only the class declaration (`qgstreamervideoprobecontrol.h`) is part of the sources;
the member functions are modelled from sections 4.1 and 4.2 of the specification.
Every member function runs atomically (the declaration's `QMutex m_frameMutex`), so a
run of the bridge is a sequence of operations. -/

/-- Identity of a probed buffer (`GstBuffer*` wrapped into a `QVideoFrame`). -/
abbrev VideoBuffer := Nat

/-- Modelled from the spec: the notifications §4.1 says `install` and `flush` schedule
for the consumer thread, a frame notification "carrying the current generation and
sequence" and a flush notification. -/
inductive SlotNotification where
  | frame (generation : Nat) (sequence : Nat)
  | flush (generation : Nat)
  deriving DecidableEq, Repr

/-- Modelled from the spec: the BufferSlot of §3, "zero-or-one pending Buffer, a
monotonically increasing sequence counter, and a generation counter incremented on
every flush".  The pending buffer (the declaration's `m_pendingFrame`) is stored with
the generation current when it was installed; `scheduled` lists the notifications
scheduled so far, oldest first. -/
structure BufferSlot where
  pending : Option (VideoBuffer × Nat)
  sequence : Nat
  generation : Nat
  scheduled : List SlotNotification
  deriving DecidableEq, Repr

namespace BufferSlot

/-- Modelled from the spec: `install(buffer)` of §4.1, "replaces any pending buffer
with `buffer`, increments sequence counter", and schedules a notification carrying
the current generation and sequence. -/
def install (s : BufferSlot) (buffer : VideoBuffer) : BufferSlot :=
  { s with
    pending := some (buffer, s.generation)
    sequence := s.sequence + 1
    scheduled := s.scheduled ++ [SlotNotification.frame s.generation (s.sequence + 1)] }

/-- Modelled from the spec: `take()` of §4.1, "atomically removes and returns the
pending buffer if its generation matches the slot's current generation, else returns
none (stale)". -/
def take (s : BufferSlot) : BufferSlot × Option VideoBuffer :=
  match s.pending with
  | some (buffer, g) =>
    if g = s.generation then ({ s with pending := none }, some buffer) else (s, none)
  | none => (s, none)

/-- Modelled from the spec: `flush()` of §4.1, "clears the pending buffer, increments
the generation counter, schedules a flush notification". -/
def flush (s : BufferSlot) : BufferSlot :=
  { s with
    pending := none
    generation := s.generation + 1
    scheduled := s.scheduled ++ [SlotNotification.flush (s.generation + 1)] }

end BufferSlot

/-- Modelled from the spec: the ProbeBridge of §4.2, "State: `flushing: bool`, the
BufferSlot" (the declaration's `m_flushing`, and `m_pendingFrame` inside the slot).
`probed` lists the frames the consumer side has emitted as `videoFrameProbed`, oldest
first.  The declaration's `m_frameProbed` is described by no specified operation and
is left out. -/
structure QGstreamerVideoProbeControl where
  m_flushing : Bool
  slot : BufferSlot
  probed : List VideoBuffer
  deriving DecidableEq, Repr

namespace QGstreamerVideoProbeControl

/-- Modelled from the spec: a newly built bridge, not flushing, with an empty slot. -/
def new : QGstreamerVideoProbeControl :=
  { m_flushing := false
    slot := { pending := none, sequence := 0, generation := 0, scheduled := [] }
    probed := [] }

/-- Modelled from the spec: `bufferProbed(buffer)` of §4.2, "if `flushing`, discard;
else forward to `install`". -/
def bufferProbed (b : QGstreamerVideoProbeControl) (buffer : VideoBuffer) :
    QGstreamerVideoProbeControl :=
  if b.m_flushing then b else { b with slot := b.slot.install buffer }

/-- Modelled from the spec: `startFlushing()` opens the flush window of §4.2 (from then
on incoming buffers are discarded) and performs the flush of §2, "on flush, atomically
clears the slot and schedules a flush notification". -/
def startFlushing (b : QGstreamerVideoProbeControl) : QGstreamerVideoProbeControl :=
  { b with m_flushing := true, slot := b.slot.flush }

/-- Modelled from the spec: `stopFlushing()` closes the flush window of §4.2. -/
def stopFlushing (b : QGstreamerVideoProbeControl) : QGstreamerVideoProbeControl :=
  { b with m_flushing := false }

/-- Modelled from the spec: the private slot `frameProbed()`, the consumer-thread
handler of a frame notification: it takes from the slot and emits the buffer taken,
if there is one.  The second component is that buffer. -/
def frameProbed (b : QGstreamerVideoProbeControl) :
    QGstreamerVideoProbeControl × Option VideoBuffer :=
  match b.slot.take with
  | (s, some buffer) => ({ b with slot := s, probed := b.probed ++ [buffer] }, some buffer)
  | (s, none) => ({ b with slot := s }, none)

end QGstreamerVideoProbeControl

/-- One operation on the probe bridge. -/
inductive BridgeOp where
  | bufferProbed (buffer : VideoBuffer)
  | startFlushing
  | stopFlushing
  | frameProbed
  deriving DecidableEq, Repr

/-- The bridge after one operation. -/
def BridgeOp.apply (b : QGstreamerVideoProbeControl) : BridgeOp → QGstreamerVideoProbeControl
  | BridgeOp.bufferProbed buffer => b.bufferProbed buffer
  | BridgeOp.startFlushing => b.startFlushing
  | BridgeOp.stopFlushing => b.stopFlushing
  | BridgeOp.frameProbed => b.frameProbed.1

/-- The bridge after a sequence of operations, first operation first. -/
def runBridge (b : QGstreamerVideoProbeControl) (ops : List BridgeOp) :
    QGstreamerVideoProbeControl :=
  ops.foldl BridgeOp.apply b

/-- The buffers handed to `bufferProbed` in a sequence of operations, in order. -/
def offeredBuffers : List BridgeOp → List VideoBuffer
  | [] => []
  | BridgeOp.bufferProbed buffer :: ops => buffer :: offeredBuffers ops
  | _ :: ops => offeredBuffers ops

/-- The slot holds no buffer of an older generation. -/
def pendingCurrent (b : QGstreamerVideoProbeControl) : Prop :=
  ∀ buffer g, b.slot.pending = some (buffer, g) → g = b.slot.generation

/-! ## The decode session (`QAudioDecoder`)

`QAudioDecoder` itself is not part of the sources, only its unit test is; the session
is modelled from §3 and §4.4 of the specification. -/

/-- Identity of a `QIODevice`. -/
abbrev QIODevice := Nat

/-- An audio format, an opaque comparable value. -/
abbrev QAudioFormat := Nat

/-- A decoded buffer, an opaque value. -/
abbrev QAudioBuffer := Nat

/-- Modelled from the spec: the states of §4.4, `QAudioDecoder::StoppedState` and
`QAudioDecoder::DecodingState` in the test. -/
inductive DecoderState where
  | StoppedState
  | DecodingState
  deriving DecidableEq, Repr

/-- Modelled from the spec: the error taxonomy of §7 as far as it is surfaced through
the error event. -/
inductive DecoderError where
  | NoSourceError
  | BackendFailureError
  deriving DecidableEq, Repr

/-- Modelled from the spec: the application-facing events of a decode session (§6),
the signals the test spies on. -/
inductive DecoderSignal where
  | bufferReady
  | bufferAvailableChanged (available : Bool)
  | stateChanged (state : DecoderState)
  | durationChanged (duration : Int)
  | positionChanged (position : Int)
  | finished
  | error (code : DecoderError)
  deriving DecidableEq, Repr

/-- Modelled from the spec: the DecodeSessionState of §3 with its BufferQueue, and the
events emitted so far, oldest first. -/
structure QAudioDecoder where
  state : DecoderState
  sourceFilename : String
  sourceDevice : Option QIODevice
  requestedFormat : Option QAudioFormat
  negotiatedFormat : Option QAudioFormat
  position : Int
  queue : List QAudioBuffer
  emitted : List DecoderSignal
  deriving DecidableEq, Repr

namespace QAudioDecoder

/-- Modelled from the spec: a new session, Stopped (the initial state of §4.4), with no
source, an empty queue and nothing emitted, as `tst_QAudioDecoder::ctors` and
`tst_QAudioDecoder::source` observe it. -/
def new : QAudioDecoder :=
  { state := DecoderState.StoppedState
    sourceFilename := ""
    sourceDevice := none
    requestedFormat := none
    negotiatedFormat := none
    position := 0
    queue := []
    emitted := [] }

/-- Modelled from the spec: `bufferAvailable()`, "true iff queue is non-empty" (§3). -/
def bufferAvailable (d : QAudioDecoder) : Bool :=
  !d.queue.isEmpty

/-- Modelled from the spec: a source is set when the file name is non-empty or the
device is non-null. -/
def hasSource (d : QAudioDecoder) : Bool :=
  !d.sourceFilename.isEmpty || d.sourceDevice.isSome

/-- Modelled from the spec: `setSourceFilename(name)` of §4.4, "setting one clears the
other".  The spec defines the call from Stopped and leaves a change of source while
Decoding open (rejected or deferred), so the model has no result there. -/
def setSourceFilename (d : QAudioDecoder) (name : String) : Option QAudioDecoder :=
  match d.state with
  | DecoderState.StoppedState => some { d with sourceFilename := name, sourceDevice := none }
  | DecoderState.DecodingState => none

/-- Modelled from the spec: `setSourceDevice(handle)` of §4.4, "setting one clears the
other"; as for `setSourceFilename`, no result while Decoding. -/
def setSourceDevice (d : QAudioDecoder) (device : Option QIODevice) : Option QAudioDecoder :=
  match d.state with
  | DecoderState.StoppedState => some { d with sourceFilename := "", sourceDevice := device }
  | DecoderState.DecodingState => none

/-- Modelled from the spec: `start()` of §4.4, "Stopped → Decoding, iff a source is
set; if no source, emits an error and remains Stopped.  On success: negotiatedFormat is
fixed from requestedFormat (or a source-determined default if unset), position resets
to 0, bufferAvailable becomes false until the backend produces the first buffer".
`defaultFormat` is the source-determined default; a `start()` while Decoding is one of
the invalid calls that are silently no-ops. -/
def start (defaultFormat : QAudioFormat) (d : QAudioDecoder) : QAudioDecoder :=
  match d.state with
  | DecoderState.DecodingState => d
  | DecoderState.StoppedState =>
    if d.hasSource then
      { d with
        state := DecoderState.DecodingState
        negotiatedFormat := some (d.requestedFormat.getD defaultFormat)
        position := 0
        queue := []
        emitted := d.emitted ++ [DecoderSignal.stateChanged DecoderState.DecodingState] }
    else
      { d with emitted := d.emitted ++ [DecoderSignal.error DecoderError.NoSourceError] }

end QAudioDecoder

/-- A call of one of the two source setters of the decode session. -/
inductive SourceCall where
  | setSourceFilename (name : String)
  | setSourceDevice (device : Option QIODevice)
  deriving DecidableEq, Repr

/-- The session after one setter call, when the call has a result. -/
def SourceCall.apply (d : QAudioDecoder) : SourceCall → Option QAudioDecoder
  | SourceCall.setSourceFilename name => d.setSourceFilename name
  | SourceCall.setSourceDevice device => d.setSourceDevice device

open QVideoProbe

theorem ledger_append (l : List ProbeCall) (e : List ProbeCall) :
    ledger (l ++ e) = e.foldl ledgerStep (ledger l) := by
  simp [ledger, List.foldl_append]

theorem detachCurrent_of_detached (w : MediaWorld) (p : QVideoProbe)
    (h : p.d.source = none) : detachCurrent w p = p := by
  simp [detachCurrent, h]

theorem detachCurrent_of_attached (w : MediaWorld) (p : QVideoProbe) (s : QMediaObject)
    (c : QMediaVideoProbeControl) (hs : p.d.source = some s) (hc : p.d.probee = some c)
    (hconn : p.connections = [(c, ProbeSignal.videoFrameProbed), (c, ProbeSignal.flush)]) :
    detachCurrent w p =
      { d := { source := none, probee := none }
        connections := []
        calls := p.calls ++ [ProbeCall.disconnect (some c) ProbeSignal.videoFrameProbed,
          ProbeCall.disconnect (some c) ProbeSignal.flush,
          ProbeCall.releaseControl (w.service s) (some c)] } := by
  simp [detachCurrent, hs, hc, hconn, disconnect, releaseControl, List.filter]

theorem attachment_detachCurrent (w : MediaWorld) (p : QVideoProbe) (h : Attachment w p) :
    (detachCurrent w p).d = { source := none, probee := none } ∧
    (detachCurrent w p).connections = [] ∧ ledger (detachCurrent w p).calls = some [] := by
  rcases h with ⟨hs, hc, hconn, hl⟩ | ⟨s, svc, c, hs, hc, hsvc, hconn, hl, _⟩
  · rw [detachCurrent_of_detached w p hs]
    refine ⟨?_, hconn, hl⟩
    cases hd : p.d
    simp_all
  · rw [detachCurrent_of_attached w p s c hs hc hconn]
    simp [ledger_append, hl, hsvc, ledgerStep]


theorem attachTo_no_service (w : MediaWorld) (q : QVideoProbe) (u : QMediaObject)
    (hd : q.d.probee = none) (hsvc : w.service u = none) : attachTo w q u = q := by
  simp [attachTo, hsvc, hd]

theorem attachTo_refused (w : MediaWorld) (q : QVideoProbe) (u : QMediaObject)
    (svc : QMediaService) (hsvc : w.service u = some svc)
    (hreq : w.requestControl svc q.calls = none) :
    attachTo w q u =
      { d := { source := q.d.source, probee := none }
        connections := q.connections
        calls := q.calls ++ [ProbeCall.requestControl svc none] } := by
  simp [attachTo, hsvc, requestControl, hreq]

theorem attachTo_granted (w : MediaWorld) (q : QVideoProbe) (u : QMediaObject)
    (svc : QMediaService) (c : QMediaVideoProbeControl) (hsvc : w.service u = some svc)
    (hreq : w.requestControl svc q.calls = some c) :
    attachTo w q u =
      { d := { source := some u, probee := some c }
        connections := q.connections ++
          [(c, ProbeSignal.videoFrameProbed), (c, ProbeSignal.flush)]
        calls := q.calls ++ [ProbeCall.requestControl svc (some c),
          ProbeCall.connect c ProbeSignal.videoFrameProbed,
          ProbeCall.connect c ProbeSignal.flush] } := by
  simp [attachTo, hsvc, requestControl, hreq, connect]

theorem attachment_attachTo (w : MediaWorld) (q : QVideoProbe) (u : QMediaObject)
    (hd : q.d = { source := none, probee := none }) (hconn : q.connections = [])
    (hl : ledger q.calls = some []) : Attachment w (attachTo w q u) := by
  have hs : q.d.source = none := by rw [hd]
  have hc : q.d.probee = none := by rw [hd]
  cases hsvc : w.service u with
  | none =>
    rw [attachTo_no_service w q u hc hsvc]
    exact Or.inl ⟨hs, hc, hconn, hl⟩
  | some svc =>
    cases hreq : w.requestControl svc q.calls with
    | none =>
      rw [attachTo_refused w q u svc hsvc hreq]
      exact Or.inl ⟨hs, rfl, hconn, by simp [ledger_append, hl, ledgerStep]⟩
    | some c =>
      rw [attachTo_granted w q u svc c hsvc hreq]
      exact Or.inr ⟨u, svc, c, rfl, rfl, hsvc, by simp [hconn],
        by simp [ledger_append, hl, ledgerStep], q.calls, hreq⟩

theorem setSource_fst_same (w : MediaWorld) (p : QVideoProbe) :
    (setSource w p p.d.source).1 = p := by
  simp [setSource]

theorem setSource_fst_none (w : MediaWorld) (p : QVideoProbe) :
    (setSource w p none).1 = detachCurrent w p := by
  cases hs : p.d.source with
  | none => simp [setSource, hs, detachCurrent]
  | some s => simp [setSource, hs]

theorem setSource_fst_other (w : MediaWorld) (p : QVideoProbe) (u : QMediaObject)
    (hne : p.d.source ≠ some u) :
    (setSource w p (some u)).1 = attachTo w (detachCurrent w p) u := by
  have hne2 : some u ≠ p.d.source := fun h => hne h.symm
  simp [setSource, hne2]

theorem setSource_snd (w : MediaWorld) (p : QVideoProbe) (source : Option QMediaObject) :
    (setSource w p source).2 = (source.isNone || (setSource w p source).1.d.probee.isSome) := by
  rfl

theorem attachment_setSource (w : MediaWorld) (p : QVideoProbe) (h : Attachment w p)
    (source : Option QMediaObject) : Attachment w (setSource w p source).1 := by
  obtain ⟨hd, hconn, hl⟩ := attachment_detachCurrent w p h
  by_cases hsame : source = p.d.source
  · rw [hsame, setSource_fst_same]
    exact h
  · cases source with
    | none =>
      rw [setSource_fst_none]
      exact Or.inl ⟨by rw [hd], by rw [hd], hconn, hl⟩
    | some u =>
      rw [setSource_fst_other w p u (fun h => hsame h.symm)]
      exact attachment_attachTo w _ u hd hconn hl

theorem setSourceRecorder_fst (w : MediaWorld) (p : QVideoProbe)
    (r : Option QMediaRecorder) :
    (setSourceRecorder w p r).1 =
      (setSource w p (match r with | some r => r.mediaObject | none => none)).1 := by
  simp only [setSourceRecorder]
  split_ifs <;> rfl

theorem attachment_of_reachable (w : MediaWorld) (p : QVideoProbe) (h : Reachable w p) :
    Attachment w p := by
  induction h with
  | fresh => exact Or.inl ⟨rfl, rfl, rfl, rfl⟩
  | setSource p s _ ih => exact attachment_setSource w p ih s
  | setSourceRecorder p r _ ih =>
    rw [setSourceRecorder_fst]
    exact attachment_setSource w p ih _

theorem setSource_cases (w : MediaWorld) (p : QVideoProbe) (h : Attachment w p)
    (s : Option QMediaObject) :
    (s = p.d.source ∧ setSource w p s = (p, true)) ∨
    (s = none ∧ p.d.source ≠ none ∧ setSource w p s = (detachCurrent w p, true)) ∨
    (∃ u, s = some u ∧ p.d.source ≠ some u ∧ w.service u = none ∧
      setSource w p s = (detachCurrent w p, false)) ∨
    (∃ u svc, s = some u ∧ p.d.source ≠ some u ∧ w.service u = some svc ∧
      w.requestControl svc (detachCurrent w p).calls = none ∧
      setSource w p s =
        ({ d := { source := none, probee := none }
           connections := []
           calls := (detachCurrent w p).calls ++ [ProbeCall.requestControl svc none] },
         false)) ∨
    (∃ u svc c, s = some u ∧ p.d.source ≠ some u ∧ w.service u = some svc ∧
      w.requestControl svc (detachCurrent w p).calls = some c ∧
      setSource w p s =
        ({ d := { source := some u, probee := some c }
           connections := [(c, ProbeSignal.videoFrameProbed), (c, ProbeSignal.flush)]
           calls := (detachCurrent w p).calls ++ [ProbeCall.requestControl svc (some c),
             ProbeCall.connect c ProbeSignal.videoFrameProbed,
             ProbeCall.connect c ProbeSignal.flush] },
         true)) := by
  obtain ⟨hd, hconn, hl⟩ := attachment_detachCurrent w p h
  have hqs : (detachCurrent w p).d.source = none := by rw [hd]
  have hqc : (detachCurrent w p).d.probee = none := by rw [hd]
  by_cases hsame : s = p.d.source
  · left
    refine ⟨hsame, ?_⟩
    apply Prod.ext
    · rw [hsame]; exact setSource_fst_same w p
    · rw [setSource_snd, hsame, setSource_fst_same]
      rcases h with ⟨hs, _, _, _⟩ | ⟨s', svc, c, hs, hc, _⟩
      · simp [hs]
      · simp [hc]
  · right
    cases s with
    | none =>
      left
      refine ⟨rfl, fun h0 => hsame h0.symm, ?_⟩
      apply Prod.ext
      · exact setSource_fst_none w p
      · rw [setSource_snd]; rfl
    | some u =>
      right
      have hne : p.d.source ≠ some u := fun h0 => hsame h0.symm
      cases hsvc : w.service u with
      | none =>
        left
        refine ⟨u, rfl, hne, hsvc, ?_⟩
        apply Prod.ext
        · rw [setSource_fst_other w p u hne]
          exact attachTo_no_service w _ u hqc hsvc
        · rw [setSource_snd, setSource_fst_other w p u hne,
            attachTo_no_service w _ u hqc hsvc, hqc]
          rfl
      | some svc =>
        right
        cases hreq : w.requestControl svc (detachCurrent w p).calls with
        | none =>
          left
          refine ⟨u, svc, rfl, hne, hsvc, hreq, ?_⟩
          apply Prod.ext
          · rw [setSource_fst_other w p u hne, attachTo_refused w _ u svc hsvc hreq,
              hqs, hconn]
          · rw [setSource_snd, setSource_fst_other w p u hne,
              attachTo_refused w _ u svc hsvc hreq]
            rfl
        | some c =>
          right
          refine ⟨u, svc, c, rfl, hne, hsvc, hreq, ?_⟩
          apply Prod.ext
          · rw [setSource_fst_other w p u hne, attachTo_granted w _ u svc c hsvc hreq,
              hconn]
            rfl
          · rw [setSource_snd, setSource_fst_other w p u hne,
              attachTo_granted w _ u svc c hsvc hreq]
            rfl


/-- A media object the probe is attached to in a reachable state has a service, and
that service granted the held control on some request. -/
theorem current_source_supported (w : MediaWorld) (p : QVideoProbe) (hp : Reachable w p)
    (u : QMediaObject) (hu : p.d.source = some u) :
    ∃ svc c, w.service u = some svc ∧ p.d.probee = some c ∧
      ∃ h, w.requestControl svc h = some c := by
  rcases attachment_of_reachable w p hp with ⟨hs, _⟩ | ⟨s, svc, c, hs, hc, hsvc, _, _, hreq⟩
  · rw [hs] at hu; cases hu
  · rw [hs] at hu
    cases hu
    exact ⟨svc, c, hsvc, hc, hreq⟩

/-- C1: in every state reachable by `setSource` calls, `setSource(s)` returns true
exactly when `s` is null or the probe holds a control after the call; a control held
after the call is either the one already held (`s` is the current source, nothing
changed) or the one the service of `s` returned to this call's `requestControl`; and
the call returns false when `s` is non-null and has no service, or the
`requestControl` the call makes yields no control, or the service never yields one. -/
theorem setSource_returns_true_iff (w : MediaWorld) (p : QVideoProbe) (hp : Reachable w p)
    (s : Option QMediaObject) :
    ((setSource w p s).2 = true ↔ (s = none ∨ (setSource w p s).1.d.probee ≠ none)) ∧
    (∀ c, (setSource w p s).1.d.probee = some c →
      (s ≠ none ∧ s = p.d.source ∧ p.d.probee = some c ∧ (setSource w p s).1 = p) ∨
      (∃ u svc, s = some u ∧ p.d.source ≠ some u ∧ w.service u = some svc ∧
        w.requestControl svc (detachCurrent w p).calls = some c)) ∧
    (∀ u, s = some u → w.service u = none → (setSource w p s).2 = false) ∧
    (∀ u svc, s = some u → p.d.source ≠ some u → w.service u = some svc →
      w.requestControl svc (detachCurrent w p).calls = none →
      (setSource w p s).2 = false) ∧
    (∀ u svc, s = some u → w.service u = some svc →
      (∀ h, w.requestControl svc h = none) → (setSource w p s).2 = false) := by
  have hinv := attachment_of_reachable w p hp
  refine ⟨?_, ?_, ?_, ?_, ?_⟩
  · rw [setSource_snd]
    cases s <;> cases (setSource w p _).1.d.probee <;> simp
  · intro c hc
    rcases setSource_cases w p hinv s with ⟨hs, he⟩ | ⟨hs, _, he⟩ | ⟨u, hs, _, _, he⟩ |
      ⟨u, svc, hs, _, _, _, he⟩ | ⟨u, svc, c', hs, hne, hsvc, hreq, he⟩
    · left
      rw [he] at hc
      refine ⟨?_, hs, hc, by rw [he]⟩
      intro h0
      rcases hinv with ⟨_, hc0, _⟩ | ⟨s', _, _, hs', _⟩
      · rw [hc0] at hc; cases hc
      · rw [h0, hs'] at hs; cases hs
    · exfalso
      rw [he] at hc
      have := (attachment_detachCurrent w p hinv).1
      rw [this] at hc
      cases hc
    · exfalso
      rw [he] at hc
      have := (attachment_detachCurrent w p hinv).1
      rw [this] at hc
      cases hc
    · rw [he] at hc; cases hc
    · right
      rw [he] at hc
      cases hc
      exact ⟨u, svc, hs, hne, hsvc, hreq⟩
  · intro u hs hsvc
    rcases setSource_cases w p hinv s with ⟨hs', _⟩ | ⟨hs', _, _⟩ | ⟨_, _, _, _, he⟩ |
      ⟨_, _, _, _, _, _, he⟩ | ⟨u', svc, c', hs', _, hsvc', _, _⟩
    · obtain ⟨svc, _, h1, _⟩ := current_source_supported w p hp u (by rw [← hs', hs])
      rw [hsvc] at h1; cases h1
    · rw [hs] at hs'; cases hs'
    · rw [he]
    · rw [he]
    · rw [hs] at hs'; cases hs'
      rw [hsvc] at hsvc'; cases hsvc'
  · intro u svc hs hne hsvc hreq
    rcases setSource_cases w p hinv s with ⟨hs', _⟩ | ⟨hs', _, _⟩ | ⟨_, _, _, _, he⟩ |
      ⟨_, _, _, _, _, _, he⟩ | ⟨u', svc', c', hs', _, hsvc', hreq', _⟩
    · exact absurd (by rw [← hs', hs]) hne
    · rw [hs] at hs'; cases hs'
    · rw [he]
    · rw [he]
    · rw [hs] at hs'; cases hs'
      rw [hsvc] at hsvc'; cases hsvc'
      rw [hreq] at hreq'; cases hreq'
  · intro u svc hs hsvc hnever
    rcases setSource_cases w p hinv s with ⟨hs', _⟩ | ⟨hs', _, _⟩ | ⟨_, _, _, _, he⟩ |
      ⟨_, _, _, _, _, _, he⟩ | ⟨u', svc', c', hs', _, hsvc', hreq', _⟩
    · obtain ⟨svc', c, h1, _, h, hreq⟩ := current_source_supported w p hp u (by rw [← hs', hs])
      rw [hsvc] at h1; cases h1
      rw [hnever h] at hreq; cases hreq
    · rw [hs] at hs'; cases hs'
    · rw [he]
    · rw [he]
    · rw [hs] at hs'; cases hs'
      rw [hsvc] at hsvc'; cases hsvc'
      rw [hnever _] at hreq'; cases hreq'

theorem setSource_returns_true_iff_witness :
    Reachable demoWorld QVideoProbe.new ∧
    ((setSource demoWorld QVideoProbe.new (some 1)).2 = true ↔
      ((some 1 : Option QMediaObject) = none ∨
        (setSource demoWorld QVideoProbe.new (some 1)).1.d.probee ≠ none)) ∧
    (setSource demoWorld QVideoProbe.new (some 2)).2 = false :=
  ⟨Reachable.fresh,
    (setSource_returns_true_iff demoWorld QVideoProbe.new Reachable.fresh (some 1)).1,
    (setSource_returns_true_iff demoWorld QVideoProbe.new Reachable.fresh (some 2)).2.2.2.2
      2 20 rfl rfl (fun _ => rfl)⟩

/-- After a `setSource(x)` that returned true, the probe's source reference is `x`. -/
theorem source_eq_of_setSource_true (w : MediaWorld) (p : QVideoProbe)
    (hinv : Attachment w p) (x : Option QMediaObject) (ht : (setSource w p x).2 = true) :
    (setSource w p x).1.d.source = x := by
  rcases setSource_cases w p hinv x with ⟨hs, he⟩ | ⟨hs, _, he⟩ | ⟨u, hs, _, _, he⟩ |
    ⟨u, svc, hs, _, _, _, he⟩ | ⟨u, svc, c', hs, hne, hsvc, hreq, he⟩
  · rw [he]; exact hs.symm
  · rw [he, hs, (attachment_detachCurrent w p hinv).1]
  · rw [he] at ht; cases ht
  · rw [he] at ht; cases ht
  · rw [he, hs]

/-- After a `setSource(x)` that returned false the probe is detached, and the same call
made again asks the service of `x` once more: it leaves the held source, the held
control and `isActive()` as they were exactly when `x` has no service or that second
request yields no control either. -/
theorem setSource_repeat_after_refusal (w : MediaWorld) (p : QVideoProbe)
    (hinv : Attachment w p) (x : Option QMediaObject)
    (hf : (setSource w p x).2 = false) :
    ((setSource w (setSource w p x).1 x).1.d = (setSource w p x).1.d ∧
      isActive (setSource w (setSource w p x).1 x).1 = isActive (setSource w p x).1) ↔
    (∀ u svc, x = some u → w.service u = some svc →
      w.requestControl svc (setSource w p x).1.calls = none) := by
  have hq := attachment_setSource w p hinv x
  have hsnd := setSource_snd w p x
  rw [hf] at hsnd
  have hc1 : (setSource w p x).1.d.probee = none := by
    cases hpc : (setSource w p x).1.d.probee with
    | none => rfl
    | some c => rw [hpc] at hsnd; simp at hsnd
  have hs1 : (setSource w p x).1.d.source = none := by
    rcases hq with ⟨hs, _⟩ | ⟨_, _, c, _, hc, _⟩
    · exact hs
    · rw [hc1] at hc; cases hc
  have hd1 : (setSource w p x).1.d = { source := none, probee := none } := by
    cases hd : (setSource w p x).1.d
    rw [hd] at hc1 hs1
    simp only at hc1 hs1
    rw [hc1, hs1]
  have hdet : detachCurrent w (setSource w p x).1 = (setSource w p x).1 :=
    detachCurrent_of_detached w _ hs1
  have hact : isActive (setSource w p x).1 = false := by
    rw [isActive, hc1]; rfl
  rcases setSource_cases w _ hq x with ⟨hs, _⟩ | ⟨hs, _, _⟩ | ⟨u, hs, _, hsvc, he⟩ |
    ⟨u, svc, hs, _, hsvc, hreq, he⟩ | ⟨u, svc, c, hs, _, hsvc, hreq, he⟩
  · rw [hs, hs1] at hsnd; simp at hsnd
  · rw [hs] at hsnd; simp at hsnd
  · rw [he, hdet]
    constructor
    · intro _ u2 svc2 hx hsvc2
      rw [hs] at hx; cases hx
      rw [hsvc] at hsvc2; cases hsvc2
    · intro _
      exact ⟨rfl, rfl⟩
  · rw [hdet] at hreq
    rw [he]
    constructor
    · intro _ u2 svc2 hx hsvc2
      rw [hs] at hx; cases hx
      rw [hsvc] at hsvc2; cases hsvc2
      exact hreq
    · intro _
      exact ⟨hd1.symm, by rw [hact]; rfl⟩
  · rw [hdet] at hreq
    rw [he]
    constructor
    · rintro ⟨hd, _⟩
      rw [hd1] at hd
      cases hd
    · intro hnone
      rw [hnone u svc hs hsvc] at hreq
      cases hreq

/-- C2 (amended): in every reachable state, `setSource` with the probe's current source
(null or not) returns true and changes nothing: source reference, control, connections
and the log of outside calls are the same, so no `requestControl`, `releaseControl`,
`connect` or `disconnect` was made.  Hence a `setSource(x)` that returned true (it
attached or deactivated the probe, `x` is then the current source), repeated at once,
changes nothing.  After a `setSource(x)` that returned false the probe is detached and
the repeated call asks the service of `x` again: the held source, the held control and
`isActive()` stay as they were exactly when `x` has no service or that second request
yields no control either, which is so in particular when the service's answer does not
depend on the calls made before. -/
theorem setSource_current_source_noop (w : MediaWorld) (p : QVideoProbe)
    (hp : Reachable w p) :
    setSource w p p.d.source = (p, true) ∧
    isActive (setSource w p p.d.source).1 = isActive p ∧
    (setSource w p p.d.source).1.calls = p.calls ∧
    (∀ x, (setSource w p x).2 = true →
      setSource w (setSource w p x).1 x = ((setSource w p x).1, true)) ∧
    (∀ x, (∀ svc h h', w.requestControl svc h = w.requestControl svc h') →
      (setSource w (setSource w p x).1 x).1.d = (setSource w p x).1.d ∧
      isActive (setSource w (setSource w p x).1 x).1 = isActive (setSource w p x).1 ∧
      (setSource w (setSource w p x).1 x).2 = (setSource w p x).2) ∧
    (∀ x, (setSource w p x).2 = false →
      (((setSource w (setSource w p x).1 x).1.d = (setSource w p x).1.d ∧
        isActive (setSource w (setSource w p x).1 x).1 = isActive (setSource w p x).1) ↔
      (∀ u svc, x = some u → w.service u = some svc →
        w.requestControl svc (setSource w p x).1.calls = none))) := by
  have hinv := attachment_of_reachable w p hp
  have same : ∀ q, Attachment w q → setSource w q q.d.source = (q, true) := by
    intro q hq
    rcases setSource_cases w q hq q.d.source with ⟨_, he⟩ | ⟨hs, hne, _⟩ |
      ⟨u, hs, hne, _⟩ | ⟨u, svc, hs, hne, _⟩ | ⟨u, svc, c', hs, hne, _⟩
    · exact he
    · exact absurd hs hne
    · exact absurd hs hne
    · exact absurd hs hne
    · exact absurd hs hne
  have again : ∀ x, (setSource w p x).2 = true →
      setSource w (setSource w p x).1 x = ((setSource w p x).1, true) := by
    intro x ht
    have h1 := same _ (attachment_setSource w p hinv x)
    rw [source_eq_of_setSource_true w p hinv x ht] at h1
    exact h1
  refine ⟨same p hinv, by rw [same p hinv], by rw [same p hinv], again, ?_,
    fun x hf => setSource_repeat_after_refusal w p hinv x hf⟩
  intro x hstable
  cases ht : (setSource w p x).2 with
  | true =>
    rw [again x ht]
    exact ⟨rfl, rfl, rfl⟩
  | false =>
    -- the first call failed: `x` is non-null and the probe is detached
    rcases setSource_cases w p hinv x with ⟨hs, he⟩ | ⟨hs, _, he⟩ | ⟨u, hs, _, hsvc, he⟩ |
      ⟨u, svc, hs, _, hsvc, hreq, he⟩ | ⟨u, svc, c', hs, hne, hsvc, hreq, he⟩
    · rw [he] at ht; cases ht
    · rw [he] at ht; cases ht
    · have hq := attachment_setSource w p hinv x
      have hd := (attachment_detachCurrent w p hinv).1
      rw [he] at hq ⊢
      have hne : (detachCurrent w p).d.source ≠ some u := by rw [hd]; simp
      rcases setSource_cases w _ hq x with ⟨hs', _⟩ | ⟨hs', _, _⟩ | ⟨u', hs', _, _, he'⟩ |
        ⟨u', svc', hs', _, hsvc', _, _⟩ | ⟨u', svc', c', hs', _, hsvc', _, _⟩
      · rw [hs] at hs'; exact absurd hs'.symm hne
      · rw [hs] at hs'; cases hs'
      · rw [he']
        rw [detachCurrent_of_detached w (detachCurrent w p) (by rw [hd])]
        exact ⟨rfl, rfl, rfl⟩
      · rw [hs] at hs'; cases hs'
        rw [hsvc] at hsvc'; cases hsvc'
      · rw [hs] at hs'; cases hs'
        rw [hsvc] at hsvc'; cases hsvc'
    · have hq := attachment_setSource w p hinv x
      rw [he] at hq ⊢
      rcases setSource_cases w _ hq x with ⟨hs', _⟩ | ⟨hs', _, _⟩ | ⟨u', hs', _, hsvc', _⟩ |
        ⟨u', svc', hs', _, hsvc', _, he'⟩ | ⟨u', svc', c', hs', _, hsvc', hreq', _⟩
      · rw [hs] at hs'; cases hs'
      · rw [hs] at hs'; cases hs'
      · rw [hs] at hs'; cases hs'
        rw [hsvc] at hsvc'; cases hsvc'
      · rw [he']
        exact ⟨rfl, rfl, rfl⟩
      · rw [hs] at hs'; cases hs'
        rw [hsvc] at hsvc'; cases hsvc'
        rw [hstable svc _ (detachCurrent w p).calls, hreq] at hreq'
        cases hreq'
    · rw [he] at ht; cases ht

theorem setSource_current_source_noop_witness :
    Reachable demoWorld (setSource demoWorld QVideoProbe.new (some 1)).1 ∧
    setSource demoWorld (setSource demoWorld QVideoProbe.new (some 1)).1 (some 1) =
      ((setSource demoWorld QVideoProbe.new (some 1)).1, true) ∧
    (setSource demoWorld QVideoProbe.new (some 2)).2 = false ∧
    (setSource demoWorld (setSource demoWorld QVideoProbe.new (some 2)).1 (some 2)).1.d =
      (setSource demoWorld QVideoProbe.new (some 2)).1.d :=
  ⟨Reachable.setSource _ _ Reachable.fresh,
    (setSource_current_source_noop demoWorld (setSource demoWorld QVideoProbe.new (some 1)).1
      (Reachable.setSource _ _ Reachable.fresh)).1,
    rfl,
    (((setSource_current_source_noop demoWorld QVideoProbe.new
      Reachable.fresh).2.2.2.2.2 (some 2) rfl).mpr
      (fun u svc hx hsvc => by
        cases hx
        have h20 : svc = 20 := by
          have h := hsvc
          simp [demoWorld] at h
          exact h.symm
        subst h20
        rfl)).1⟩

/-- C2, the repeated call as first stated fails: in `retryWorld` the first
`setSource(2)` on a new probe is refused (returns false, the probe stays inactive with
no control), and the same call made again at once is granted: it returns true,
`isActive()` turns true and control 200 is held. -/
theorem setSource_repeat_counterexample :
    Reachable retryWorld (setSource retryWorld QVideoProbe.new (some 2)).1 ∧
    (setSource retryWorld QVideoProbe.new (some 2)).2 = false ∧
    isActive (setSource retryWorld QVideoProbe.new (some 2)).1 = false ∧
    (setSource retryWorld QVideoProbe.new (some 2)).1.d.probee = none ∧
    (setSource retryWorld (setSource retryWorld QVideoProbe.new (some 2)).1 (some 2)).2
      = true ∧
    isActive (setSource retryWorld (setSource retryWorld QVideoProbe.new (some 2)).1
      (some 2)).1 = true ∧
    (setSource retryWorld (setSource retryWorld QVideoProbe.new (some 2)).1
      (some 2)).1.d.probee = some 200 :=
  ⟨Reachable.setSource _ _ Reachable.fresh, by decide, by decide, by decide, by decide,
    by decide, by decide⟩

/-- What `setSource(u)` does in a reachable state when `u` does not support probing:
it detaches, then at most asks the service of `u` once, in vain. -/
theorem setSource_unsupported_eq (w : MediaWorld) (p : QVideoProbe)
    (hp : Reachable w p) (u : QMediaObject)
    (hu : w.service u = none ∨
      ∃ svc, w.service u = some svc ∧ ∀ h, w.requestControl svc h = none) :
    ∃ rest, (rest = [] ∨ ∃ svc, rest = [ProbeCall.requestControl svc none]) ∧
      setSource w p (some u) =
        ({ d := { source := none, probee := none }
           connections := []
           calls := (detachCurrent w p).calls ++ rest }, false) := by
  have hinv := attachment_of_reachable w p hp
  obtain ⟨hd, hconn, _⟩ := attachment_detachCurrent w p hinv
  rcases setSource_cases w p hinv (some u) with ⟨hs, _⟩ | ⟨h0, _, _⟩ |
    ⟨u', hs, _, _, he⟩ | ⟨u', svc', hs, _, _, _, he⟩ | ⟨u', svc', c', hs, _, hsvc', hreq', _⟩
  · exfalso
    obtain ⟨svc, c, hsvc, _, h, hreq⟩ := current_source_supported w p hp u hs.symm
    rcases hu with h1 | ⟨svc1, h1, hnever⟩
    · rw [hsvc] at h1; cases h1
    · rw [hsvc] at h1; cases h1
      rw [hnever h] at hreq; cases hreq
  · cases h0
  · refine ⟨[], Or.inl rfl, ?_⟩
    rw [he, List.append_nil]
    congr 1
    cases hq : detachCurrent w p
    rw [hq] at hd hconn
    simp only at hd hconn
    rw [hd, hconn]
  · exact ⟨_, Or.inr ⟨svc', rfl⟩, he⟩
  · exfalso
    cases hs
    rcases hu with h1 | ⟨svc1, h1, hnever⟩
    · rw [hsvc'] at h1; cases h1
    · rw [hsvc'] at h1; cases h1
      rw [hnever _] at hreq'; cases hreq'

/-- C3: in every reachable state (attached to some other source or not), `setSource(u)`
for a non-null `u` that does not support probing (it has no service, or its service
never yields a control) returns false and leaves the probe detached: `isActive()` is
false, no source and no control are held, no connection remains, every control
obtained so far has been released, and a control held before the call had both
signals disconnected and was released before the service of `u` was asked. -/
theorem setSource_unsupported_detaches (w : MediaWorld) (p : QVideoProbe)
    (hp : Reachable w p) (u : QMediaObject)
    (hu : w.service u = none ∨
      ∃ svc, w.service u = some svc ∧ ∀ h, w.requestControl svc h = none) :
    (setSource w p (some u)).2 = false ∧
    isActive (setSource w p (some u)).1 = false ∧
    (setSource w p (some u)).1.d.source = none ∧
    (setSource w p (some u)).1.d.probee = none ∧
    (setSource w p (some u)).1.connections = [] ∧
    ledger (setSource w p (some u)).1.calls = some [] ∧
    (∀ c, p.d.probee = some c → ∃ s svc rest, p.d.source = some s ∧
      w.service s = some svc ∧
      (rest = [] ∨ ∃ svc', rest = [ProbeCall.requestControl svc' none]) ∧
      (setSource w p (some u)).1.calls = p.calls ++
        [ProbeCall.disconnect (some c) ProbeSignal.videoFrameProbed,
         ProbeCall.disconnect (some c) ProbeSignal.flush,
         ProbeCall.releaseControl (some svc) (some c)] ++ rest) := by
  have hinv := attachment_of_reachable w p hp
  obtain ⟨rest, hrest, he⟩ := setSource_unsupported_eq w p hp u hu
  have hl : ledger (setSource w p (some u)).1.calls = some [] := by
    rcases attachment_setSource w p hinv (some u) with ⟨_, _, _, hl⟩ | ⟨_, _, c, _, hc, _⟩
    · exact hl
    · rw [he] at hc; cases hc
  refine ⟨by rw [he], by rw [he]; rfl, by rw [he], by rw [he], by rw [he], hl, ?_⟩
  intro c hpc
  rcases hinv with ⟨_, hc0, _⟩ | ⟨s, svc, c0, hs, hc0, hsvc, hconn, _⟩
  · rw [hc0] at hpc; cases hpc
  · rw [hc0] at hpc; cases hpc
    refine ⟨s, svc, rest, hs, hsvc, hrest, ?_⟩
    rw [he, detachCurrent_of_attached w p s c hs hc0 hconn, hsvc]

theorem setSource_unsupported_detaches_witness :
    Reachable demoWorld (setSource demoWorld QVideoProbe.new (some 1)).1 ∧
    (demoWorld.service 2 = none ∨
      ∃ svc, demoWorld.service 2 = some svc ∧ ∀ h, demoWorld.requestControl svc h = none) ∧
    (setSource demoWorld (setSource demoWorld QVideoProbe.new (some 1)).1 (some 2)).2 = false ∧
    isActive
      (setSource demoWorld (setSource demoWorld QVideoProbe.new (some 1)).1 (some 2)).1
      = false :=
  ⟨Reachable.setSource _ _ Reachable.fresh, Or.inr ⟨20, rfl, fun _ => rfl⟩,
    (setSource_unsupported_detaches demoWorld _ (Reachable.setSource _ _ Reachable.fresh) 2
      (Or.inr ⟨20, rfl, fun _ => rfl⟩)).1,
    (setSource_unsupported_detaches demoWorld _ (Reachable.setSource _ _ Reachable.fresh) 2
      (Or.inr ⟨20, rfl, fun _ => rfl⟩)).2.1⟩

/-- In a reachable state `setSource(null)` leaves the probe inactive. -/
theorem setSource_none_inactive (w : MediaWorld) (p : QVideoProbe) (hp : Reachable w p) :
    isActive (setSource w p none).1 = false := by
  have hd := (attachment_detachCurrent w p (attachment_of_reachable w p hp)).1
  rw [setSource_fst_none, isActive, hd]
  rfl

/-- C5: in every reachable state `setSource(null)` returns true and deactivates the
probe: afterwards `isActive()` is false, no source and no control are held and nothing
is connected; a control held before the call has had both signals disconnected and
was then released on the service of the source it was attached to, and these are the
only outside calls made (none when nothing was held). -/
theorem setSource_null_deactivates (w : MediaWorld) (p : QVideoProbe) (hp : Reachable w p) :
    (setSource w p none).2 = true ∧
    isActive (setSource w p none).1 = false ∧
    (setSource w p none).1.d.source = none ∧
    (setSource w p none).1.d.probee = none ∧
    (setSource w p none).1.connections = [] ∧
    (∀ c, p.d.probee = some c → ∃ s svc, p.d.source = some s ∧ w.service s = some svc ∧
      (setSource w p none).1.calls = p.calls ++
        [ProbeCall.disconnect (some c) ProbeSignal.videoFrameProbed,
         ProbeCall.disconnect (some c) ProbeSignal.flush,
         ProbeCall.releaseControl (some svc) (some c)]) ∧
    (p.d.probee = none → (setSource w p none).1.calls = p.calls) := by
  have hinv := attachment_of_reachable w p hp
  obtain ⟨hd, hconn, _⟩ := attachment_detachCurrent w p hinv
  refine ⟨rfl, ?_, ?_, ?_, ?_, ?_, ?_⟩
  · exact setSource_none_inactive w p hp
  · rw [setSource_fst_none, hd]
  · rw [setSource_fst_none, hd]
  · rw [setSource_fst_none, hconn]
  · intro c hpc
    rcases hinv with ⟨_, hc0, _⟩ | ⟨s, svc, c0, hs, hc0, hsvc, hconn0, _⟩
    · rw [hc0] at hpc; cases hpc
    · rw [hc0] at hpc; cases hpc
      exact ⟨s, svc, hs, hsvc, by
        rw [setSource_fst_none, detachCurrent_of_attached w p s c hs hc0 hconn0, hsvc]⟩
  · intro hpc
    rcases hinv with ⟨hs, _⟩ | ⟨_, _, c0, _, hc0, _⟩
    · rw [setSource_fst_none, detachCurrent_of_detached w p hs]
    · rw [hc0] at hpc; cases hpc

theorem setSource_null_deactivates_witness :
    Reachable demoWorld (setSource demoWorld QVideoProbe.new (some 1)).1 ∧
    (setSource demoWorld (setSource demoWorld QVideoProbe.new (some 1)).1 none).2 = true ∧
    isActive (setSource demoWorld (setSource demoWorld QVideoProbe.new (some 1)).1 none).1
      = false :=
  ⟨Reachable.setSource _ _ Reachable.fresh,
    (setSource_null_deactivates demoWorld _ (Reachable.setSource _ _ Reachable.fresh)).1,
    (setSource_null_deactivates demoWorld _ (Reachable.setSource _ _ Reachable.fresh)).2.1⟩

/-- C6: in every reachable state `setSource(QMediaRecorder *r)` returns true when `r`
is null and false when `r` is non-null with a null `mediaObject()`, in both cases after
applying `setSource(null)`, so the probe ends deactivated; otherwise it is exactly
`setSource(r->mediaObject())`, state and returned value. -/
theorem setSourceRecorder_result (w : MediaWorld) (p : QVideoProbe) (hp : Reachable w p)
    (r : Option QMediaRecorder) :
    (r = none → setSourceRecorder w p r = ((setSource w p none).1, true) ∧
      isActive (setSourceRecorder w p r).1 = false) ∧
    (∀ rec, r = some rec → rec.mediaObject = none →
      setSourceRecorder w p r = ((setSource w p none).1, false) ∧
      isActive (setSourceRecorder w p r).1 = false) ∧
    (∀ rec m, r = some rec → rec.mediaObject = some m →
      setSourceRecorder w p r = setSource w p (some m)) := by
  have hoff := setSource_none_inactive w p hp
  refine ⟨?_, ?_, ?_⟩
  · intro hr
    subst hr
    exact ⟨rfl, hoff⟩
  · intro rec hr hm
    subst hr
    have : setSourceRecorder w p (some rec) = ((setSource w p none).1, false) := by
      simp [setSourceRecorder, hm]
    exact ⟨this, by rw [this]; exact hoff⟩
  · intro rec m hr hm
    subst hr
    simp [setSourceRecorder, hm]

theorem setSourceRecorder_result_witness :
    Reachable demoWorld (setSource demoWorld QVideoProbe.new (some 1)).1 ∧
    (setSourceRecorder demoWorld (setSource demoWorld QVideoProbe.new (some 1)).1
      (some { mediaObject := none })).2 = false ∧
    isActive (setSourceRecorder demoWorld (setSource demoWorld QVideoProbe.new (some 1)).1
      (some { mediaObject := none })).1 = false :=
  ⟨Reachable.setSource _ _ Reachable.fresh,
    by rw [((setSourceRecorder_result demoWorld _ (Reachable.setSource _ _ Reachable.fresh)
      (some { mediaObject := none })).2.1 { mediaObject := none } rfl rfl).1],
    ((setSourceRecorder_result demoWorld _ (Reachable.setSource _ _ Reachable.fresh)
      (some { mediaObject := none })).2.1 { mediaObject := none } rfl rfl).2⟩

theorem reachable_runSetSource (w : MediaWorld) (cs : List SetSourceCall) :
    ∀ p, Reachable w p → Reachable w (runSetSource w p cs) := by
  induction cs with
  | nil => intro p hp; exact hp
  | cons c cs ih =>
    intro p hp
    have hstep : Reachable w (SetSourceCall.apply w p c) := by
      cases c with
      | mediaObject s => exact Reachable.setSource p s hp
      | mediaRecorder r => exact Reachable.setSourceRecorder p r hp
    exact ih _ hstep

theorem ledgerStep_none (l : List ProbeCall) : l.foldl ledgerStep none = none := by
  induction l with
  | nil => rfl
  | cons e l ih =>
    rw [List.foldl_cons]
    have : ledgerStep none e = none := by
      cases e with
      | requestControl svc r => cases r <;> rfl
      | releaseControl svc c => cases svc <;> cases c <;> rfl
      | connect c sig => rfl
      | disconnect c sig => rfl
    rw [this, ih]

/-- When the bookkeeping of a call log succeeds, acquisitions and releases of every
(service, control) pair balance, and no release names a null service or control. -/
theorem ledger_balance (l : List ProbeCall) :
    ∀ held out, l.foldl ledgerStep (some held) = some out →
      (∀ svc c, l.count (ProbeCall.requestControl svc (some c)) + held.count (svc, c) =
        l.count (ProbeCall.releaseControl (some svc) (some c)) + out.count (svc, c)) ∧
      (∀ svc c, ProbeCall.releaseControl svc c ∈ l → svc ≠ none ∧ c ≠ none) := by
  induction l with
  | nil =>
    intro held out h
    simp only [List.foldl_nil, Option.some.injEq] at h
    subst h
    simp
  | cons e l ih =>
    intro held out h
    rw [List.foldl_cons] at h
    cases e with
    | requestControl svc r =>
      cases r with
      | none =>
        obtain ⟨h1, h2⟩ := ih held out h
        refine ⟨fun svc' c' => ?_, fun svc' c' hm => ?_⟩
        · simpa using h1 svc' c'
        · simp only [List.mem_cons] at hm
          rcases hm with hm | hm
          · cases hm
          · exact h2 svc' c' hm
      | some c =>
        obtain ⟨h1, h2⟩ := ih ((svc, c) :: held) out h
        refine ⟨fun svc' c' => ?_, fun svc' c' hm => ?_⟩
        · have := h1 svc' c'
          by_cases heq : (svc, c) = (svc', c')
          · cases heq
            simp only [List.count_cons_self] at this ⊢
            simp only [List.count_cons, beq_iff_eq, reduceCtorEq, ite_false, Nat.add_zero]
            omega
          · have hne : ¬ (svc = svc' ∧ c = c') := fun hh => heq (by rw [hh.1, hh.2])
            simp only [List.count_cons, beq_iff_eq, ProbeCall.requestControl.injEq,
              Option.some.injEq, Prod.mk.injEq, hne, ite_false, reduceCtorEq,
              Nat.add_zero] at this ⊢
            exact this
        · simp only [List.mem_cons] at hm
          rcases hm with hm | hm
          · cases hm
          · exact h2 svc' c' hm
    | releaseControl svc c =>
      cases svc with
      | none =>
        have e : ledgerStep (some held) (ProbeCall.releaseControl none c) = none := by
          cases c <;> rfl
        rw [e, ledgerStep_none] at h; cases h
      | some svc =>
        cases c with
        | none =>
          have e : ledgerStep (some held) (ProbeCall.releaseControl (some svc) none) = none :=
            rfl
          rw [e, ledgerStep_none] at h; cases h
        | some c =>
          simp only [ledgerStep, Option.some_bind] at h
          by_cases hmem : (svc, c) ∈ held
          · rw [if_pos hmem] at h
            obtain ⟨h1, h2⟩ := ih _ out h
            refine ⟨fun svc' c' => ?_, fun svc' c' hm => ?_⟩
            · have := h1 svc' c'
              by_cases heq : (svc, c) = (svc', c')
              · cases heq
                have hpos : 0 < held.count (svc, c) := List.count_pos_iff.mpr hmem
                simp only [List.count_erase_self] at this
                simp only [List.count_cons, beq_iff_eq, reduceCtorEq, ite_false,
                  Nat.add_zero, ite_true]
                omega
              · have hne : ¬ (svc = svc' ∧ c = c') := fun hh => heq (by rw [hh.1, hh.2])
                rw [List.count_erase_of_ne (fun hh => heq hh.symm)] at this
                simp only [List.count_cons, beq_iff_eq, ProbeCall.releaseControl.injEq,
                  Option.some.injEq, hne, ite_false, reduceCtorEq, Nat.add_zero] at this ⊢
                exact this
            · simp only [List.mem_cons] at hm
              rcases hm with hm | hm
              · cases hm; simp
              · exact h2 svc' c' hm
          · rw [if_neg hmem, ledgerStep_none] at h; cases h
    | connect c sig =>
      obtain ⟨h1, h2⟩ := ih held out h
      refine ⟨fun svc' c' => ?_, fun svc' c' hm => ?_⟩
      · simpa using h1 svc' c'
      · simp only [List.mem_cons] at hm
        rcases hm with hm | hm
        · cases hm
        · exact h2 svc' c' hm
    | disconnect c sig =>
      obtain ⟨h1, h2⟩ := ih held out h
      refine ⟨fun svc' c' => ?_, fun svc' c' hm => ?_⟩
      · simpa using h1 svc' c'
      · simp only [List.mem_cons] at hm
        rcases hm with hm | hm
        · cases hm
        · exact h2 svc' c' hm

theorem destroy_of_detached (w : MediaWorld) (p : QVideoProbe) (h : p.d.source = none) :
    destroy w p = p := by
  simp [destroy, h]

theorem destroy_of_attached (w : MediaWorld) (p : QVideoProbe) (s : QMediaObject)
    (c : QMediaVideoProbeControl) (hs : p.d.source = some s) (hc : p.d.probee = some c) :
    destroy w p =
      { d := p.d
        connections := (p.connections.filter
          (fun e => decide (e ≠ (c, ProbeSignal.videoFrameProbed)))).filter
          (fun e => decide (e ≠ (c, ProbeSignal.flush)))
        calls := p.calls ++ [ProbeCall.disconnect (some c) ProbeSignal.videoFrameProbed,
          ProbeCall.disconnect (some c) ProbeSignal.flush,
          ProbeCall.releaseControl (w.service s) (some c)] } := by
  simp [destroy, hs, hc, disconnect, releaseControl]

theorem ledger_lifetime (w : MediaWorld) (cs : List SetSourceCall) :
    ledger (destroy w (runSetSource w QVideoProbe.new cs)).calls = some [] := by
  have hp := reachable_runSetSource w cs _ Reachable.fresh
  rcases attachment_of_reachable w _ hp with ⟨hs, _, _, hl⟩ | ⟨s, svc, c, hs, hc, hsvc, _, hl, _⟩
  · rw [destroy_of_detached w _ hs]; exact hl
  · rw [destroy_of_attached w _ s c hs hc]
    simp [ledger_append, hl, hsvc, ledgerStep]

/-- C4: after any finite sequence of `setSource` calls (either overload) on a fresh
probe followed by its destruction, with every object alive throughout, the log of
outside calls balances: each control a `requestControl` returned is handed to
`releaseControl` of the same service exactly once (per pair, as many releases as
grants, and nothing outstanding at the end), each release hits an acquisition still
outstanding, and no `releaseControl` is made with a null service or a null control. -/
theorem controls_released_exactly_once (w : MediaWorld) (cs : List SetSourceCall) :
    ledger (destroy w (runSetSource w QVideoProbe.new cs)).calls = some [] ∧
    (∀ svc c,
      (destroy w (runSetSource w QVideoProbe.new cs)).calls.count
          (ProbeCall.releaseControl (some svc) (some c)) =
        (destroy w (runSetSource w QVideoProbe.new cs)).calls.count
          (ProbeCall.requestControl svc (some c))) ∧
    (∀ svc c, ProbeCall.releaseControl svc c ∈
        (destroy w (runSetSource w QVideoProbe.new cs)).calls → svc ≠ none ∧ c ≠ none) := by
  have hl := ledger_lifetime w cs
  obtain ⟨h1, h2⟩ := ledger_balance _ [] [] hl
  refine ⟨hl, fun svc c => ?_, h2⟩
  have := h1 svc c
  simp only [List.count_nil, Nat.add_zero] at this
  exact this.symm

/-- C10: `~QVideoProbe` on a probe that holds source `s` and control `c` disconnects
`videoFrameProbed` and `flush` of `c` (no connection from `c` is left, the others are
kept) and then calls `releaseControl(c)` on `s->service()`, in that order and nothing
else; on a probe whose source reference is null (never attached, detached, or read as
null because the source was deleted) it makes no outside call and changes nothing.
In a reachable state with a source held, the service is non-null and a control is
held, so the three calls are exactly what the destructor does. -/
theorem destroy_effect (w : MediaWorld) (p : QVideoProbe) :
    (∀ s c, p.d.source = some s → p.d.probee = some c →
      (destroy w p).calls = p.calls ++
        [ProbeCall.disconnect (some c) ProbeSignal.videoFrameProbed,
         ProbeCall.disconnect (some c) ProbeSignal.flush,
         ProbeCall.releaseControl (w.service s) (some c)] ∧
      (∀ e, e ∈ (destroy w p).connections ↔ e ∈ p.connections ∧ e.1 ≠ c)) ∧
    (p.d.source = none → destroy w p = p) ∧
    (∀ s, p.d.source = some s →
      destroy w (sourceDestroyed p s) = sourceDestroyed p s ∧
      (destroy w (sourceDestroyed p s)).calls = p.calls) ∧
    (Reachable w p → ∀ s, p.d.source = some s → ∃ svc c,
      w.service s = some svc ∧ p.d.probee = some c ∧
      (destroy w p).calls = p.calls ++
        [ProbeCall.disconnect (some c) ProbeSignal.videoFrameProbed,
         ProbeCall.disconnect (some c) ProbeSignal.flush,
         ProbeCall.releaseControl (some svc) (some c)] ∧
      (destroy w p).connections = []) := by
  refine ⟨?_, destroy_of_detached w p, ?_, ?_⟩
  · intro s c hs hc
    rw [destroy_of_attached w p s c hs hc]
    refine ⟨rfl, ?_⟩
    rintro ⟨c', sig⟩
    simp only [List.mem_filter, decide_eq_true_eq, ne_eq, Prod.mk.injEq, not_and]
    constructor
    · rintro ⟨⟨hm, h1⟩, h2⟩
      refine ⟨hm, fun hcc => ?_⟩
      cases sig
      · exact h1 hcc rfl
      · exact h2 hcc rfl
    · rintro ⟨hm, hne⟩
      exact ⟨⟨hm, fun hcc => absurd hcc hne⟩, fun hcc => absurd hcc hne⟩
  · intro s hs
    have hgone : (sourceDestroyed p s).d.source = none := by
      simp [sourceDestroyed, hs]
    rw [destroy_of_detached w _ hgone]
    refine ⟨rfl, ?_⟩
    simp [sourceDestroyed, hs]
  · intro hp s hs
    rcases attachment_of_reachable w p hp with ⟨hs0, _⟩ | ⟨s', svc, c, hs', hc, hsvc, hconn, _⟩
    · rw [hs0] at hs; cases hs
    · rw [hs'] at hs; cases hs
      refine ⟨svc, c, hsvc, hc, ?_, ?_⟩
      · rw [destroy_of_attached w p s c hs' hc, hsvc]
      · rw [destroy_of_attached w p s c hs' hc, hconn]
        simp [List.filter]

theorem destroy_effect_witness :
    Reachable demoWorld (setSource demoWorld QVideoProbe.new (some 1)).1 ∧
    (setSource demoWorld QVideoProbe.new (some 1)).1.d.source = some 1 ∧
    (destroy demoWorld (setSource demoWorld QVideoProbe.new (some 1)).1).calls =
      (setSource demoWorld QVideoProbe.new (some 1)).1.calls ++
        [ProbeCall.disconnect (some 100) ProbeSignal.videoFrameProbed,
         ProbeCall.disconnect (some 100) ProbeSignal.flush,
         ProbeCall.releaseControl (some 10) (some 100)] ∧
    destroy demoWorld QVideoProbe.new = QVideoProbe.new :=
  ⟨Reachable.setSource _ _ Reachable.fresh, rfl,
    ((destroy_effect demoWorld (setSource demoWorld QVideoProbe.new (some 1)).1).1
      1 100 rfl rfl).1,
    (destroy_effect demoWorld QVideoProbe.new).2.1 rfl⟩

/-- C11: attachment well-formedness is an invariant of `QVideoProbe`.  In every state
reachable from a new probe by `setSource` calls of either overload, the source
reference is non-null exactly when the probe control is non-null, so `isActive()` is
true exactly when a source is held; with a control `c` held the probe's connections
are the two forwarding connections to `c`, each once, and no other; with none held
nothing is connected; and the condition of `Q_ASSERT(d->probee)` in the detach branch
holds for whatever source `setSource` is called with next. -/
theorem attachment_wellformed (w : MediaWorld) (p : QVideoProbe) (hp : Reachable w p) :
    (p.d.source ≠ none ↔ p.d.probee ≠ none) ∧
    (isActive p = true ↔ p.d.source ≠ none) ∧
    (∀ c, p.d.probee = some c →
      p.connections = [(c, ProbeSignal.videoFrameProbed), (c, ProbeSignal.flush)] ∧
      p.connections.count (c, ProbeSignal.videoFrameProbed) = 1 ∧
      p.connections.count (c, ProbeSignal.flush) = 1 ∧
      ∀ e, e ∈ p.connections → e.1 = c) ∧
    (p.d.probee = none → p.connections = []) ∧
    (∀ source, detachAssertion p source = true) ∧
    (∀ r, detachAssertion p
      (match r with | some (rec : QMediaRecorder) => rec.mediaObject | none => none) = true) := by
  have hassert : ∀ source, detachAssertion p source = true := by
    intro source
    rcases attachment_of_reachable w p hp with ⟨hs, _⟩ | ⟨s, _, c, hs, hc, _⟩
    · simp [detachAssertion, hs]
    · simp [detachAssertion, hs, hc]
  rcases attachment_of_reachable w p hp with
    ⟨hs, hc, hconn, _⟩ | ⟨s, svc, c, hs, hc, _, hconn, _⟩
  · refine ⟨by simp [hs, hc], by simp [isActive, hs, hc], ?_, fun _ => hconn, hassert,
      fun r => hassert _⟩
    intro c hpc
    rw [hc] at hpc
    cases hpc
  · refine ⟨by simp [hs, hc], by simp [isActive, hs, hc], ?_, ?_, hassert,
      fun r => hassert _⟩
    · intro c0 hpc
      rw [hc] at hpc
      cases hpc
      refine ⟨hconn, ?_, ?_, ?_⟩
      · rw [hconn]; simp
      · rw [hconn]; simp
      · intro e he
        rw [hconn] at he
        simp only [List.mem_cons, List.mem_singleton, List.not_mem_nil, or_false] at he
        rcases he with he | he <;> rw [he]
    · intro hpc
      rw [hc] at hpc
      cases hpc

theorem attachment_wellformed_witness :
    Reachable demoWorld
      (runSetSource demoWorld QVideoProbe.new
        [SetSourceCall.mediaObject (some 1), SetSourceCall.mediaObject (some 2),
         SetSourceCall.mediaRecorder (some { mediaObject := some 1 })]) ∧
    (runSetSource demoWorld QVideoProbe.new
        [SetSourceCall.mediaObject (some 1), SetSourceCall.mediaObject (some 2),
         SetSourceCall.mediaRecorder (some { mediaObject := some 1 })]).connections =
      [(100, ProbeSignal.videoFrameProbed), (100, ProbeSignal.flush)] ∧
    detachAssertion
      (runSetSource demoWorld QVideoProbe.new
        [SetSourceCall.mediaObject (some 1), SetSourceCall.mediaObject (some 2),
         SetSourceCall.mediaRecorder (some { mediaObject := some 1 })]) (some 2) = true :=
  ⟨reachable_runSetSource demoWorld _ _ Reachable.fresh,
    ((attachment_wellformed demoWorld
      (runSetSource demoWorld QVideoProbe.new
        [SetSourceCall.mediaObject (some 1), SetSourceCall.mediaObject (some 2),
         SetSourceCall.mediaRecorder (some { mediaObject := some 1 })])
      (reachable_runSetSource demoWorld _ _ Reachable.fresh)).2.2.1 100 rfl).1,
    (attachment_wellformed demoWorld
      (runSetSource demoWorld QVideoProbe.new
        [SetSourceCall.mediaObject (some 1), SetSourceCall.mediaObject (some 2),
         SetSourceCall.mediaRecorder (some { mediaObject := some 1 })])
      (reachable_runSetSource demoWorld _ _ Reachable.fresh)).2.2.2.2.1 (some 2)⟩

/-! ## Theorems about the probe bridge -/

/-- A flush leaves no stale buffer in the slot. -/
theorem pendingCurrent_startFlushing (b : QGstreamerVideoProbeControl) :
    pendingCurrent b.startFlushing := by
  intro buffer g h
  simp [QGstreamerVideoProbeControl.startFlushing, BufferSlot.flush] at h

theorem pendingCurrent_apply (c : QGstreamerVideoProbeControl) (op : BridgeOp)
    (h : pendingCurrent c) : pendingCurrent (op.apply c) := by
  obtain ⟨fl, ⟨pend, seq, gen, sch⟩, pr⟩ := c
  cases op with
  | bufferProbed buffer =>
    cases fl
    · intro x g hx
      simp [BridgeOp.apply, QGstreamerVideoProbeControl.bufferProbed, BufferSlot.install] at hx ⊢
      exact hx.2.symm
    · exact h
  | startFlushing => exact pendingCurrent_startFlushing _
  | stopFlushing => exact h
  | frameProbed =>
    cases pend with
    | none => exact h
    | some xg =>
      obtain ⟨x, g⟩ := xg
      have hg : g = gen := h x g rfl
      subst hg
      intro y g' hy
      simp [BridgeOp.apply, QGstreamerVideoProbeControl.frameProbed, BufferSlot.take] at hy

theorem frameProbed_of_empty (c : QGstreamerVideoProbeControl) (h : c.slot.pending = none) :
    c.frameProbed = (c, none) := by
  obtain ⟨fl, ⟨pend, seq, gen, sch⟩, pr⟩ := c
  simp only at h
  subst h
  rfl

/-- Running operations from a bridge whose slot holds only a current buffer: what the
consumer is handed, followed by the pending buffer, is a subsequence of what had been
offered. -/
theorem runBridge_sublist (ops : List BridgeOp) :
    ∀ (c : QGstreamerVideoProbeControl) (base later acc : List VideoBuffer),
      pendingCurrent c → c.probed = base ++ later →
      (later ++ (c.slot.pending.map Prod.fst).toList).Sublist acc →
      ∃ later2, (runBridge c ops).probed = base ++ later2 ∧
        (later2 ++ ((runBridge c ops).slot.pending.map Prod.fst).toList).Sublist
          (acc ++ offeredBuffers ops) := by
  induction ops with
  | nil =>
    intro c base later acc _ hp hs
    exact ⟨later, hp, by simpa [offeredBuffers, runBridge] using hs⟩
  | cons op ops ih =>
    intro c base later acc hc hp hs
    have hc2 := pendingCurrent_apply c op hc
    obtain ⟨fl, ⟨pend, seq, gen, sch⟩, pr⟩ := c
    simp only at hp hs
    have hlater : later.Sublist acc :=
      (List.sublist_append_left later _).trans hs
    cases op with
    | bufferProbed buffer =>
      cases fl
      · obtain ⟨l2, h1, h2⟩ := ih _ base later (acc ++ [buffer]) hc2
          (by simpa [BridgeOp.apply, QGstreamerVideoProbeControl.bufferProbed] using hp)
          (by
            simp only [BridgeOp.apply, QGstreamerVideoProbeControl.bufferProbed,
              BufferSlot.install, Option.map_some', Option.toList_some]
            exact List.Sublist.append hlater (List.Sublist.refl _))
        exact ⟨l2, h1, by simpa [offeredBuffers] using h2⟩
      · obtain ⟨l2, h1, h2⟩ := ih _ base later (acc ++ [buffer]) hc2
          (by simpa [BridgeOp.apply, QGstreamerVideoProbeControl.bufferProbed] using hp)
          (by
            simp only [BridgeOp.apply, QGstreamerVideoProbeControl.bufferProbed]
            exact hs.trans (List.sublist_append_left _ _))
        exact ⟨l2, h1, by simpa [offeredBuffers] using h2⟩
    | startFlushing =>
      obtain ⟨l2, h1, h2⟩ := ih _ base later acc hc2
        (by simpa [BridgeOp.apply, QGstreamerVideoProbeControl.startFlushing] using hp)
        (by simpa [BridgeOp.apply, QGstreamerVideoProbeControl.startFlushing,
          BufferSlot.flush] using hlater)
      exact ⟨l2, h1, by simpa [offeredBuffers] using h2⟩
    | stopFlushing =>
      obtain ⟨l2, h1, h2⟩ := ih _ base later acc hc2
        (by simpa [BridgeOp.apply, QGstreamerVideoProbeControl.stopFlushing] using hp)
        (by simpa [BridgeOp.apply, QGstreamerVideoProbeControl.stopFlushing] using hs)
      exact ⟨l2, h1, by simpa [offeredBuffers] using h2⟩
    | frameProbed =>
      cases pend with
      | none =>
        obtain ⟨l2, h1, h2⟩ := ih _ base later acc hc2
          (by simpa [BridgeOp.apply, QGstreamerVideoProbeControl.frameProbed,
            BufferSlot.take] using hp)
          (by simpa [BridgeOp.apply, QGstreamerVideoProbeControl.frameProbed,
            BufferSlot.take] using hs)
        exact ⟨l2, h1, by simpa [offeredBuffers] using h2⟩
      | some xg =>
        obtain ⟨x, g⟩ := xg
        have hg : g = gen := hc x g rfl
        subst hg
        obtain ⟨l2, h1, h2⟩ := ih _ base (later ++ [x]) acc hc2
          (by simp [BridgeOp.apply, QGstreamerVideoProbeControl.frameProbed,
            BufferSlot.take, hp])
          (by simpa [BridgeOp.apply, QGstreamerVideoProbeControl.frameProbed,
            BufferSlot.take] using hs)
        exact ⟨l2, h1, by simpa [offeredBuffers] using h2⟩

/-- Two bridges with the same flag and the same pending buffer, neither holding a
stale one, hand the consumer the same frames under the same operations. -/
theorem runBridge_independent (ops : List BridgeOp) :
    ∀ (c c2 : QGstreamerVideoProbeControl) (base base2 later : List VideoBuffer),
      c.m_flushing = c2.m_flushing →
      c.slot.pending.map Prod.fst = c2.slot.pending.map Prod.fst →
      pendingCurrent c → pendingCurrent c2 →
      c.probed = base ++ later → c2.probed = base2 ++ later →
      ∃ later2, (runBridge c ops).probed = base ++ later2 ∧
        (runBridge c2 ops).probed = base2 ++ later2 := by
  induction ops with
  | nil =>
    intro c c2 base base2 later _ _ _ _ hp hp2
    exact ⟨later, hp, hp2⟩
  | cons op ops ih =>
    intro c c2 base base2 later hf hpend hc hc2 hp hp2
    have hn := pendingCurrent_apply c op hc
    have hn2 := pendingCurrent_apply c2 op hc2
    obtain ⟨fl, ⟨pend, seq, gen, sch⟩, pr⟩ := c
    obtain ⟨fl2, ⟨pend2, seq2, gen2, sch2⟩, pr2⟩ := c2
    simp only at hf hpend hp hp2
    subst hf
    cases op with
    | bufferProbed buffer =>
      cases fl
      · exact ih _ _ base base2 later rfl rfl hn hn2
          (by simpa [BridgeOp.apply, QGstreamerVideoProbeControl.bufferProbed] using hp)
          (by simpa [BridgeOp.apply, QGstreamerVideoProbeControl.bufferProbed] using hp2)
      · exact ih _ _ base base2 later rfl hpend hn hn2
          (by simpa [BridgeOp.apply, QGstreamerVideoProbeControl.bufferProbed] using hp)
          (by simpa [BridgeOp.apply, QGstreamerVideoProbeControl.bufferProbed] using hp2)
    | startFlushing =>
      exact ih _ _ base base2 later rfl rfl hn hn2
        (by simpa [BridgeOp.apply, QGstreamerVideoProbeControl.startFlushing] using hp)
        (by simpa [BridgeOp.apply, QGstreamerVideoProbeControl.startFlushing] using hp2)
    | stopFlushing =>
      exact ih _ _ base base2 later rfl hpend hn hn2
        (by simpa [BridgeOp.apply, QGstreamerVideoProbeControl.stopFlushing] using hp)
        (by simpa [BridgeOp.apply, QGstreamerVideoProbeControl.stopFlushing] using hp2)
    | frameProbed =>
      cases pend with
      | none =>
        cases pend2 with
        | none =>
          exact ih _ _ base base2 later rfl rfl hn hn2
            (by simpa [BridgeOp.apply, QGstreamerVideoProbeControl.frameProbed,
              BufferSlot.take] using hp)
            (by simpa [BridgeOp.apply, QGstreamerVideoProbeControl.frameProbed,
              BufferSlot.take] using hp2)
        | some yg => simp at hpend
      | some xg =>
        cases pend2 with
        | none => simp at hpend
        | some yg =>
          obtain ⟨x, g⟩ := xg
          obtain ⟨y, g2⟩ := yg
          have hg : g = gen := hc x g rfl
          have hg2 : g2 = gen2 := hc2 y g2 rfl
          subst hg
          subst hg2
          have hxy : x = y := by simpa using hpend
          subst hxy
          exact ih _ _ base base2 (later ++ [x])
            (by simp [BridgeOp.apply, QGstreamerVideoProbeControl.frameProbed,
              BufferSlot.take])
            (by simp [BridgeOp.apply, QGstreamerVideoProbeControl.frameProbed,
              BufferSlot.take])
            hn hn2
            (by simp [BridgeOp.apply, QGstreamerVideoProbeControl.frameProbed,
              BufferSlot.take, hp])
            (by simp [BridgeOp.apply, QGstreamerVideoProbeControl.frameProbed,
              BufferSlot.take, hp2])

/-- While the flushing flag stays set, or while nothing is offered, the slot of a
bridge that starts empty stays empty and nothing reaches the consumer. -/
theorem runBridge_quiet (ops : List BridgeOp) :
    ∀ c : QGstreamerVideoProbeControl, c.slot.pending = none →
      (offeredBuffers ops = [] ∨ (c.m_flushing = true ∧ BridgeOp.stopFlushing ∉ ops)) →
      (runBridge c ops).probed = c.probed ∧ (runBridge c ops).slot.pending = none := by
  induction ops with
  | nil => intro c h _; exact ⟨rfl, h⟩
  | cons op ops ih =>
    intro c hpend hq
    obtain ⟨fl, ⟨pend, seq, gen, sch⟩, pr⟩ := c
    simp only at hpend hq
    subst hpend
    cases op with
    | bufferProbed buffer =>
      rcases hq with hq | ⟨hfl, hq⟩
      · simp [offeredBuffers] at hq
      · subst hfl
        exact ih _ rfl (Or.inr ⟨rfl, fun hm => hq (List.mem_cons_of_mem _ hm)⟩)
    | startFlushing =>
      have := ih (BridgeOp.apply ⟨fl, ⟨none, seq, gen, sch⟩, pr⟩ BridgeOp.startFlushing) rfl
        (by
          rcases hq with hq | ⟨_, hq⟩
          · exact Or.inl (by simpa [offeredBuffers] using hq)
          · exact Or.inr ⟨rfl, fun hm => hq (List.mem_cons_of_mem _ hm)⟩)
      exact this
    | stopFlushing =>
      have := ih (BridgeOp.apply ⟨fl, ⟨none, seq, gen, sch⟩, pr⟩ BridgeOp.stopFlushing) rfl
        (by
          rcases hq with hq | ⟨_, hq⟩
          · exact Or.inl (by simpa [offeredBuffers] using hq)
          · exact absurd (List.mem_cons_self _ _) hq)
      exact this
    | frameProbed =>
      have := ih (BridgeOp.apply ⟨fl, ⟨none, seq, gen, sch⟩, pr⟩ BridgeOp.frameProbed) rfl
        (by
          rcases hq with hq | ⟨hfl, hq⟩
          · exact Or.inl (by simpa [offeredBuffers] using hq)
          · exact Or.inr ⟨hfl, fun hm => hq (List.mem_cons_of_mem _ hm)⟩)
      exact this

/-- C7: on the probe bridge, after a flush (`startFlushing`) the pending slot is empty
and a take (`frameProbed`) returns none; as long as no buffer is offered, or the
flushing flag has not been cleared, every later take hands the consumer nothing; a
buffer that arrives while the flag is set leaves the bridge as it was; whatever the
consumer is handed after the flush is, in order, a subsequence of the buffers offered
after the flush, and is the same whatever the bridge had been through before the
flush. -/
theorem flush_never_delivers_stale (b : QGstreamerVideoProbeControl) :
    (b.startFlushing.slot.pending = none ∧ b.startFlushing.m_flushing = true) ∧
    b.startFlushing.frameProbed.2 = none ∧
    (∀ buffer, b.m_flushing = true → b.bufferProbed buffer = b) ∧
    (∀ ops, offeredBuffers ops = [] →
      (runBridge b.startFlushing ops).probed = b.probed ∧
      (runBridge b.startFlushing ops).frameProbed.2 = none) ∧
    (∀ ops, BridgeOp.stopFlushing ∉ ops →
      (runBridge b.startFlushing ops).probed = b.probed ∧
      (runBridge b.startFlushing ops).frameProbed.2 = none) ∧
    (∀ ops, ∃ later, (runBridge b.startFlushing ops).probed = b.probed ++ later ∧
      later.Sublist (offeredBuffers ops)) ∧
    (∀ b2 ops, (runBridge b.startFlushing ops).probed.drop b.probed.length =
      (runBridge (QGstreamerVideoProbeControl.startFlushing b2) ops).probed.drop
        b2.probed.length) := by
  refine ⟨⟨rfl, rfl⟩, rfl, ?_, ?_, ?_, ?_, ?_⟩
  · intro buffer h
    simp [QGstreamerVideoProbeControl.bufferProbed, h]
  · intro ops h
    obtain ⟨h1, h2⟩ := runBridge_quiet ops b.startFlushing rfl (Or.inl h)
    exact ⟨h1, by rw [frameProbed_of_empty _ h2]⟩
  · intro ops h
    obtain ⟨h1, h2⟩ := runBridge_quiet ops b.startFlushing rfl (Or.inr ⟨rfl, h⟩)
    exact ⟨h1, by rw [frameProbed_of_empty _ h2]⟩
  · intro ops
    obtain ⟨later, h1, h2⟩ := runBridge_sublist ops b.startFlushing b.probed [] []
      (pendingCurrent_startFlushing b) (by simp [QGstreamerVideoProbeControl.startFlushing])
      (by simp [QGstreamerVideoProbeControl.startFlushing, BufferSlot.flush])
    refine ⟨later, h1, ?_⟩
    have h3 := (List.sublist_append_left later _).trans h2
    simpa using h3
  · intro b2 ops
    obtain ⟨later, h1, h2⟩ := runBridge_independent ops b.startFlushing
      (QGstreamerVideoProbeControl.startFlushing b2) b.probed b2.probed [] rfl rfl
      (pendingCurrent_startFlushing b) (pendingCurrent_startFlushing b2)
      (by simp [QGstreamerVideoProbeControl.startFlushing])
      (by simp [QGstreamerVideoProbeControl.startFlushing])
    rw [h1, h2, List.drop_left, List.drop_left]

theorem flush_never_delivers_stale_witness :
    (runBridge
      (QGstreamerVideoProbeControl.startFlushing
        (QGstreamerVideoProbeControl.bufferProbed QGstreamerVideoProbeControl.new 7))
      [BridgeOp.frameProbed, BridgeOp.bufferProbed 8, BridgeOp.frameProbed]).probed = [] :=
  ((flush_never_delivers_stale
    (QGstreamerVideoProbeControl.bufferProbed QGstreamerVideoProbeControl.new 7)).2.2.2.2.1
    [BridgeOp.frameProbed, BridgeOp.bufferProbed 8, BridgeOp.frameProbed]
    (by decide)).1

/-! ## Theorems about the decode session -/

/-- C9: `start()` on a Stopped session with no source set (empty file name, null
device) and no buffer available leaves the state Stopped and `bufferAvailable()`
false, and emits exactly one event, an error: no `bufferReady` and no
`bufferAvailableChanged`.  Nothing else of the session changes. -/
theorem start_without_source (defaultFormat : QAudioFormat) (d : QAudioDecoder)
    (hstate : d.state = DecoderState.StoppedState)
    (hname : d.sourceFilename = "") (hdevice : d.sourceDevice = none)
    (havail : d.bufferAvailable = false) :
    (QAudioDecoder.start defaultFormat d).state = DecoderState.StoppedState ∧
    (QAudioDecoder.start defaultFormat d).bufferAvailable = false ∧
    (QAudioDecoder.start defaultFormat d).emitted =
      d.emitted ++ [DecoderSignal.error DecoderError.NoSourceError] ∧
    ((QAudioDecoder.start defaultFormat d).emitted.drop d.emitted.length).countP
      (fun e => match e with | DecoderSignal.error _ => true | _ => false) = 1 ∧
    ((QAudioDecoder.start defaultFormat d).emitted.drop d.emitted.length).countP
      (fun e => match e with
        | DecoderSignal.bufferReady => true
        | DecoderSignal.bufferAvailableChanged _ => true
        | _ => false) = 0 ∧
    QAudioDecoder.start defaultFormat d =
      { d with emitted := d.emitted ++ [DecoderSignal.error DecoderError.NoSourceError] } := by
  have hno : d.hasSource = false := by
    have hempty : ("" : String).isEmpty = true := rfl
    simp [QAudioDecoder.hasSource, hname, hdevice, hempty]
  have he : QAudioDecoder.start defaultFormat d =
      { d with emitted := d.emitted ++ [DecoderSignal.error DecoderError.NoSourceError] } := by
    simp [QAudioDecoder.start, hstate, hno]
  rw [he]
  refine ⟨hstate, havail, rfl, ?_, ?_, rfl⟩
  · simp
  · simp

theorem start_without_source_witness :
    QAudioDecoder.new.state = DecoderState.StoppedState ∧
    QAudioDecoder.new.sourceFilename = "" ∧ QAudioDecoder.new.sourceDevice = none ∧
    QAudioDecoder.new.bufferAvailable = false ∧
    (QAudioDecoder.start 0 QAudioDecoder.new).state = DecoderState.StoppedState ∧
    (QAudioDecoder.start 0 QAudioDecoder.new).bufferAvailable = false ∧
    (QAudioDecoder.start 0 QAudioDecoder.new).emitted =
      [DecoderSignal.error DecoderError.NoSourceError] :=
  ⟨rfl, rfl, rfl, rfl,
    (start_without_source 0 QAudioDecoder.new rfl rfl rfl rfl).1,
    (start_without_source 0 QAudioDecoder.new rfl rfl rfl rfl).2.1,
    (start_without_source 0 QAudioDecoder.new rfl rfl rfl rfl).2.2.1⟩

end QtMultimedia
